/-
Verification of the PkgBot recipe API and utility layer.

This file gives a shallow embedding, in Lean 4, of the decision logic of
`api/recipe.py` (the recipe error / trust workflow handlers) and of
`utils.py` (the command runner and the log redaction helper), and proves
or refutes the behavioural properties stated about them.

Conventions used throughout:
* Python strings are Lean `String`s; where Python string algorithms are
  needed (`str.split`, `str.strip`, `re.sub`) they are re-implemented
  structurally over `List Char` so that all definitions evaluate inside
  the kernel.
* Database rows (Tortoise ORM models `Recipes`, `ErrorMessages`) become
  Lean structures; a database is the pair of row lists plus a fresh-id
  counter.  `QuerySet.get` (raises on zero or several matches),
  `filter(...).first()` (returns `None` on no match) and
  `update_or_create` are modelled with their ORM semantics.
* Each HTTP handler becomes a pure function from the database and the
  external inputs (including the chat API's returned correlation
  handles) to a result record carrying the new database, the
  notifications sent, the background tasks queued, and either a normal
  return or the name of the unhandled Python exception that escapes.
-/
import Mathlib

namespace PkgBot

/-! ## Python `str.split(sep)` (literal separator, non-overlapping scan) -/

/-- If `sep` is a leading pattern of `s`, return the remainder of `s`
after it, else `none`. -/
def stripSep : List Char → List Char → Option (List Char)
  | [], s => some s
  | _ :: _, [] => none
  | p :: ps, c :: cs => if c = p then stripSep ps cs else none

/-- Worker for `pySplit`: scans the text left to right, cutting at every
(non-overlapping) occurrence of the separator.  The fuel argument is the
length of the text, which bounds the number of steps; recursion is
structural on the fuel so that the function reduces in the kernel. -/
def splitGo (sep : List Char) : Nat → List Char → List Char → List (List Char)
  | _, cur, [] => [cur.reverse]
  | 0, cur, s => [cur.reverse ++ s]
  | fuel + 1, cur, c :: cs =>
    match stripSep sep (c :: cs) with
    | some rest => cur.reverse :: splitGo sep fuel [] rest
    | none => splitGo sep fuel (c :: cur) cs

/-- Python's `text.split(sep)` for a literal (non-empty) separator. -/
def pySplit (sep text : String) : List String :=
  (splitGo sep.data text.data.length [] text.data).map (fun l => ⟨l⟩)

/-! ## Error-text parsing in `recipe_error`

The handler runs
`reduce(lambda x, y: {y: x}, error.split(': ')[::-1])`
inside a `try`, falling back to `{recipe_id: error}` on any exception.
The value produced is either a bare string (when the list fed to
`reduce` is a singleton) or a nest of single-key dictionaries. -/

/-- The shape of the parsed error value: Python's `reduce` returns either
the sole list element (a string) or nested one-key dictionaries. -/
inductive ErrVal where
  | str : String → ErrVal
  | dict : String → ErrVal → ErrVal
  deriving DecidableEq, Repr

/-- The try-block of `recipe_error`: split the error text on `": "` and
right-fold into nested one-key dicts.  `reduce` over an empty list would
raise `TypeError`, which the `except` catches, producing the flat
fallback dict — that is the `[]` branch below. -/
def parse_error (recipe_id error : String) : ErrVal :=
  match (pySplit ": " error).reverse with
  | [] => ErrVal.dict recipe_id (ErrVal.str error)
  | h :: t => t.foldl (fun x y => ErrVal.dict y x) (ErrVal.str h)

/-- The key path of a parsed error value, outermost key first. -/
def errKeys : ErrVal → List String
  | .str _ => []
  | .dict k v => k :: errKeys v

/-- The innermost value of a parsed error value. -/
def errInner : ErrVal → String
  | .str s => s
  | .dict _ v => errInner v

theorem errKeys_foldl (t : List String) (acc : ErrVal) :
    errKeys (t.foldl (fun x y => ErrVal.dict y x) acc) = t.reverse ++ errKeys acc := by
  induction t generalizing acc with
  | nil => simp
  | cons y t ih =>
    simp only [List.foldl_cons, List.reverse_cons, ih, errKeys]
    simp

theorem errInner_foldl (t : List String) (acc : ErrVal) :
    errInner (t.foldl (fun x y => ErrVal.dict y x) acc) = errInner acc := by
  induction t generalizing acc with
  | nil => rfl
  | cons y t ih => simp only [List.foldl_cons, ih, errInner]

/-- `splitGo` always returns a non-empty list, whatever the fuel. -/
theorem splitGo_ne_nil (sep : List Char) (fuel : Nat) (cur s : List Char) :
    splitGo sep fuel cur s ≠ [] := by
  induction fuel generalizing cur s with
  | zero => cases s <;> simp [splitGo]
  | succ n ih =>
    cases s with
    | nil => simp [splitGo]
    | cons c cs =>
      simp only [splitGo]
      cases stripSep sep (c :: cs) with
      | none => exact ih _ _
      | some rest => simp

/-- `pySplit` never returns the empty list, so the `except` fallback of
`recipe_error` is unreachable for string input. -/
theorem pySplit_ne_nil (sep text : String) : pySplit sep text ≠ [] := by
  simp only [pySplit, ne_eq, List.map_eq_nil_iff]
  exact splitGo_ne_nil _ _ _ _

/-- A singleton split result is the accumulator glued to the rest of the
text: no separator occurrence was consumed. -/
theorem splitGo_eq_singleton (sep : List Char) (fuel : Nat) (cur s r : List Char)
    (h : splitGo sep fuel cur s = [r]) : r = cur.reverse ++ s := by
  induction fuel generalizing cur s with
  | zero =>
    cases s with
    | nil => simp [splitGo] at h; simp [h]
    | cons c cs => simp [splitGo] at h; simp [h]
  | succ n ih =>
    cases s with
    | nil => simp [splitGo] at h; simp [h]
    | cons c cs =>
      simp only [splitGo] at h
      cases hs : stripSep sep (c :: cs) with
      | none => rw [hs] at h; simpa using ih _ _ h
      | some rest =>
        rw [hs] at h
        have htl : splitGo sep n [] rest = [] := by
          have := congrArg List.tail h
          simpa using this
        exact absurd htl (splitGo_ne_nil _ _ _ _)

/-! ## Data model: the `Recipes` and `ErrorMessages` tables -/

/-- A row of the `Recipes` table (fields the workflow touches). -/
structure Recipe where
  id : Nat
  recipe_id : String
  enabled : Bool
  deriving DecidableEq, Repr

/-- A row of the `ErrorMessages` table (fields the workflow touches).
The correlation handles are `none` until a chat message is posted. -/
structure ErrorMessage where
  id : Nat
  recipe_id : String
  slack_ts : Option String
  slack_channel : Option String
  deriving DecidableEq, Repr

/-- The persistent store: both tables plus the next fresh primary key
for `ErrorMessages`. -/
structure DB where
  recipes : List Recipe
  errors : List ErrorMessage
  nextErrorId : Nat
  deriving DecidableEq, Repr

/-- `Recipes.filter(recipe_id=rid).first()`: first matching row or `None`. -/
def filterFirstRecipe (db : DB) (rid : String) : Option Recipe :=
  (db.recipes.filter (fun r => r.recipe_id == rid)).head?

/-- `recipe_object.save()`: write back the row with this primary key. -/
def saveRecipe (db : DB) (r : Recipe) : DB :=
  { db with recipes := db.recipes.map (fun x => if x.id = r.id then r else x) }

/-- `ErrorMessages.get(...)`: exactly one matching row, else the ORM
raises `DoesNotExist` / `MultipleObjectsReturned`. -/
def getOneError (db : DB) (p : ErrorMessage → Bool) : Except String ErrorMessage :=
  match db.errors.filter p with
  | [] => .error "DoesNotExist"
  | [e] => .ok e
  | _ :: _ :: _ => .error "MultipleObjectsReturned"

/-- `ErrorMessages.create(recipe_id=rid)`: append a fresh row. -/
def createError (db : DB) (rid : String) : ErrorMessage × DB :=
  let e : ErrorMessage :=
    { id := db.nextErrorId, recipe_id := rid, slack_ts := none, slack_channel := none }
  (e, { db with errors := db.errors ++ [e], nextErrorId := db.nextErrorId + 1 })

/-- `ErrorMessages.update_or_create(updates, id=eid)` where the row with
primary key `eid` exists: store the correlation handles on it. -/
def updateErrorSlack (db : DB) (eid : Nat) (ts channel : Option String) : DB :=
  { db with errors := db.errors.map (fun e =>
      if e.id = eid then { e with slack_ts := ts, slack_channel := channel } else e) }

/-- The chat notifications a handler can send (the `send_msg` / `bot`
collaborator boundary). -/
inductive Notif where
  | recipeErrorMsg (recipe_id : String) (error_id : Nat) (payload : ErrVal)
  | missingRecipeEphemeral (user_id : String) (channel : String) (recipe_id : String)
  | denyTrustMsg (error_id : Nat)
  | updateTrustSuccessMsg (error_id : Nat)
  | updateTrustErrorMsg (msg : String) (error_id : Nat)
  | trustDiffMsg (msg : String) (error_id : Nat)
  deriving DecidableEq, Repr

/-- A queued background task: the argument list handed to
`recipe_runner.main`. -/
structure BgTask where
  args : List String
  deriving DecidableEq, Repr

deriving instance DecidableEq for Except

/-- Result of one handler invocation: the database after all writes that
were reached, the notifications sent, the background tasks queued, and
either normal completion or the unhandled Python exception that escaped
(writes performed before the exception are kept — there is no
transaction). -/
structure HResult where
  db : DB
  notifs : List Notif
  tasks : List BgTask
  outcome : Except String Unit
  deriving DecidableEq, Repr

/-! ## The workflow handlers of `api/recipe.py` -/

/-- `POST /recipe/error` (`recipe_error`).  `ts`/`channel` are the
correlation handles the chat API returns for the posted message. -/
def recipe_error (db : DB) (recipe_id error : String) (ts channel : Option String) : HResult :=
  let (em, db1) := createError db recipe_id
  let error_dict := parse_error recipe_id error
  let notifs := [Notif.recipeErrorMsg recipe_id em.id error_dict]
  let db2 := updateErrorSlack db1 em.id ts channel
  match filterFirstRecipe db2 recipe_id with
  | none =>
    { db := db2, notifs := notifs, tasks := [], outcome := .error "AttributeError" }
  | some r =>
    { db := saveRecipe db2 { r with enabled := false },
      notifs := notifs, tasks := [], outcome := .ok () }

/-- `POST /recipe/trust/update` (`recipe_trust_update`). -/
def recipe_trust_update (db : DB) (id : Nat) (user_id channel : String) : HResult :=
  match getOneError db (fun e => e.id == id) with
  | .error ex => { db := db, notifs := [], tasks := [], outcome := .error ex }
  | .ok error_object =>
    match filterFirstRecipe db error_object.recipe_id with
    | some recipe_object =>
      { db := saveRecipe db { recipe_object with enabled := true },
        notifs := [],
        tasks := [⟨["--recipe-identifier", error_object.recipe_id,
                    "--action", "trust", "--error_id", toString id]⟩],
        outcome := .ok () }
    | none =>
      { db := db,
        notifs := [Notif.missingRecipeEphemeral user_id channel error_object.recipe_id],
        tasks := [], outcome := .ok () }

/-- `POST /recipe/trust/deny` (`recipe_trust_deny`). -/
def recipe_trust_deny (db : DB) (id : Nat) : HResult :=
  match getOneError db (fun e => e.id == id) with
  | .error ex => { db := db, notifs := [], tasks := [], outcome := .error ex }
  | .ok error_object =>
    { db := db, notifs := [Notif.denyTrustMsg error_object.id],
      tasks := [], outcome := .ok () }

/-- `POST /recipe/trust/update/success` (`recipe_trust_update_success`).
`recipe_id` and `msg` are accepted but unused by the handler's logic. -/
def recipe_trust_update_success (db : DB) (recipe_id msg : String) (error_id : Nat) : HResult :=
  match getOneError db (fun e => e.id == error_id) with
  | .error ex => { db := db, notifs := [], tasks := [], outcome := .error ex }
  | .ok error_object =>
    { db := db, notifs := [Notif.updateTrustSuccessMsg error_object.id],
      tasks := [], outcome := .ok () }

/-- `POST /recipe/trust/update/failed` (`recipe_trust_update_failed`). -/
def recipe_trust_update_failed (db : DB) (recipe_id msg : String)
    (ts channel : Option String) : HResult :=
  match getOneError db (fun e => e.recipe_id == recipe_id) with
  | .error ex => { db := db, notifs := [], tasks := [], outcome := .error ex }
  | .ok error_object =>
    let notifs := [Notif.updateTrustErrorMsg msg error_object.id]
    let db1 := updateErrorSlack db error_object.id ts channel
    match filterFirstRecipe db1 error_object.recipe_id with
    | none =>
      { db := db1, notifs := notifs, tasks := [], outcome := .error "AttributeError" }
    | some r =>
      { db := saveRecipe db1 { r with enabled := false },
        notifs := notifs, tasks := [], outcome := .ok () }

/-- `POST /recipe/trust/verify/failed` (`reciepe_trust_verify_failed`,
name as in the source).  The chat API's result is not stored here. -/
def reciepe_trust_verify_failed (db : DB) (recipe_id msg : String) : HResult :=
  let (em, db1) := createError db recipe_id
  let notifs := [Notif.trustDiffMsg msg em.id]
  match filterFirstRecipe db1 recipe_id with
  | none =>
    { db := db1, notifs := notifs, tasks := [], outcome := .error "AttributeError" }
  | some r =>
    { db := saveRecipe db1 { r with enabled := false },
      notifs := notifs, tasks := [], outcome := .ok () }

/-! ## The trust workflow state machine

The per-recipe phases below are modelled from the spec (section 4.1);
the code stores no such field, so the phase layer is a ghost annotation
laid over the database transitions the handlers perform. -/

/-- Modelled from the spec: the workflow states of one recipe. -/
inductive Phase where
  | enabled
  | errorReported
  | trustUpdateRequested
  | trustUpdateSucceeded
  | trustUpdateFailed
  | trustDenied
  | trustVerifyFailed
  deriving DecidableEq, Repr

/-- The inbound callbacks that drive the workflow, with the external
inputs each carries (returned chat correlation handles included). -/
inductive Ev where
  | error (recipe_id error : String) (ts channel : Option String)
  | trustUpdate (id : Nat) (user_id channel : String)
  | trustDeny (id : Nat)
  | trustUpdateSuccess (recipe_id msg : String) (error_id : Nat)
  | trustUpdateFailed (recipe_id msg : String) (ts channel : Option String)
  | trustVerifyFailed (recipe_id msg : String)
  deriving DecidableEq, Repr

/-- Dispatch one callback to its handler. -/
def handleDB (db : DB) : Ev → HResult
  | .error rid err ts ch => recipe_error db rid err ts ch
  | .trustUpdate id uid ch => recipe_trust_update db id uid ch
  | .trustDeny id => recipe_trust_deny db id
  | .trustUpdateSuccess rid msg eid => recipe_trust_update_success db rid msg eid
  | .trustUpdateFailed rid msg ts ch => recipe_trust_update_failed db rid msg ts ch
  | .trustVerifyFailed rid msg => reciepe_trust_verify_failed db rid msg

/-- Modelled from the spec: which recipe's phase a callback moves, and
to which state (spec section 4.1 transition table).  Callbacks that die
in the initial record lookup, and a trust-update request whose recipe is
missing, leave every phase unchanged. -/
def phaseTarget (db : DB) : Ev → Option (String × Phase)
  | .error rid _ _ _ => some (rid, .errorReported)
  | .trustUpdate id _ _ =>
    match getOneError db (fun e => e.id == id) with
    | .error _ => none
    | .ok eo =>
      match filterFirstRecipe db eo.recipe_id with
      | some _ => some (eo.recipe_id, .trustUpdateRequested)
      | none => none
  | .trustDeny id =>
    match getOneError db (fun e => e.id == id) with
    | .error _ => none
    | .ok eo => some (eo.recipe_id, .trustDenied)
  | .trustUpdateSuccess _ _ eid =>
    match getOneError db (fun e => e.id == eid) with
    | .error _ => none
    | .ok eo => some (eo.recipe_id, .trustUpdateSucceeded)
  | .trustUpdateFailed rid _ _ _ =>
    match getOneError db (fun e => e.recipe_id == rid) with
    | .error _ => none
    | .ok eo => some (eo.recipe_id, .trustUpdateFailed)
  | .trustVerifyFailed rid _ => some (rid, .trustVerifyFailed)

/-- A workflow state: the database plus the ghost phase of each recipe. -/
structure MState where
  db : DB
  phase : String → Phase

/-- One workflow step: the handler's database writes plus the ghost
phase move. -/
def mstep (m : MState) (e : Ev) : MState :=
  { db := (handleDB m.db e).db,
    phase :=
      match phaseTarget m.db e with
      | none => m.phase
      | some (rid, p) => fun s => if s = rid then p else m.phase s }

/-- The initial state: a database with no open workflow, every recipe in
the quiescent phase. -/
def initState (db : DB) : MState :=
  { db := db, phase := fun _ => Phase.enabled }

/-- States reachable from `init` by any sequence of callbacks. -/
inductive Reachable (init : MState) : MState → Prop where
  | base : Reachable init init
  | next : ∀ {m : MState} (e : Ev), Reachable init m → Reachable init (mstep m e)

/-! ## The workflow invariant -/

/-- Distinctness of two `Recipes` rows: primary keys differ and the
external `recipe_id`s differ (both are unique columns). -/
def RecipeRel (a b : Recipe) : Prop :=
  a.id ≠ b.id ∧ a.recipe_id ≠ b.recipe_id

/-- Well-formedness of the `Recipes` table: the unique columns hold. -/
def RecipesWF (db : DB) : Prop :=
  db.recipes.Pairwise RecipeRel

/-- Modelled from the spec: the constraint each workflow phase puts on
the recipe's `enabled` flag.  An error or a failed trust action leaves
the recipe disabled; a requested (in-flight) trust update leaves it
optimistically enabled; the other phases constrain nothing. -/
def phaseOk : Phase → Bool → Bool
  | .errorReported, b => !b
  | .trustUpdateFailed, b => !b
  | .trustVerifyFailed, b => !b
  | .trustUpdateRequested, b => b
  | _, _ => true

/-- The invariant: every recipe row's `enabled` flag satisfies the
constraint of that recipe's current workflow phase. -/
def InvHolds (m : MState) : Prop :=
  ∀ rec ∈ m.db.recipes, phaseOk (m.phase rec.recipe_id) rec.enabled = true

/-! ### Helper lemmas about the store operations -/

theorem head_filter_some {α} (p : α → Bool) (l : List α) (a : α)
    (h : (l.filter p).head? = some a) : a ∈ l ∧ p a = true := by
  cases hf : l.filter p with
  | nil => rw [hf] at h; simp at h
  | cons x t =>
    rw [hf] at h
    simp only [List.head?_cons, Option.some.injEq] at h
    have hx : x ∈ l.filter p := by rw [hf]; exact List.mem_cons_self _ _
    rw [← h]
    exact List.mem_filter.mp hx

theorem head_filter_none {α} (p : α → Bool) (l : List α)
    (h : (l.filter p).head? = none) : ∀ x ∈ l, p x = false := by
  rw [List.head?_eq_none_iff, List.filter_eq_nil_iff] at h
  intro x hx
  simpa using h x hx

theorem getOneError_ok (db : DB) (p : ErrorMessage → Bool) (e : ErrorMessage)
    (h : getOneError db p = .ok e) : e ∈ db.errors ∧ p e = true := by
  unfold getOneError at h
  cases hf : db.errors.filter p with
  | nil => rw [hf] at h; exact absurd h (by simp)
  | cons a t =>
    cases t with
    | nil =>
      rw [hf] at h
      simp only [Except.ok.injEq] at h
      have ha : a ∈ db.errors.filter p := by rw [hf]; exact List.mem_cons_self _ _
      rw [← h]
      exact List.mem_filter.mp ha
    | cons b t2 => rw [hf] at h; exact absurd h (by simp)

/-- Saving a row found by `filter(recipe_id=rid).first()` with a new
`enabled` value: the same lookup afterwards yields the saved row. -/
theorem head_filter_save (l : List Recipe) (rid : String) (r r' : Recipe)
    (hid : r'.id = r.id) (hrid : r'.recipe_id = r.recipe_id)
    (h : (l.filter (fun x => x.recipe_id == rid)).head? = some r) :
    ((l.map (fun x => if x.id = r.id then r' else x)).filter
        (fun x => x.recipe_id == rid)).head? = some r' := by
  induction l with
  | nil => simp [List.filter] at h
  | cons x xs ih =>
    have hr : (r.recipe_id == rid) = true := (head_filter_some _ _ _ h).2
    by_cases hp : (x.recipe_id == rid) = true
    · rw [List.filter_cons, if_pos hp] at h
      simp only [List.head?_cons, Option.some.injEq] at h
      subst h
      rw [List.map_cons, if_pos rfl, List.filter_cons,
        if_pos (show (r'.recipe_id == rid) = true by rw [hrid]; exact hp)]
      rfl
    · rw [List.filter_cons, if_neg hp] at h
      simp only [List.map_cons]
      by_cases hx : x.id = r.id
      · rw [if_pos hx]
        rw [List.filter_cons, if_pos (show (r'.recipe_id == rid) = true by rw [hrid]; exact hr)]
        rfl
      · rw [if_neg hx]
        rw [List.filter_cons, if_neg (show ¬(x.recipe_id == rid) = true from hp)]
        exact ih h

/-- Members of the recipe table, understood: after a save of row `r'`
(same key columns as a present row `r`), every row is either `r'` or an
untouched old row other than `r`. -/
theorem mem_save_elim (l : List Recipe) (r r' : Recipe)
    (hwf : l.Pairwise RecipeRel) (hmem : r ∈ l)
    (hid : r'.id = r.id) :
    ∀ x ∈ l.map (fun y => if y.id = r.id then r' else y),
      x = r' ∨ (x ∈ l ∧ x ≠ r ∧ x.recipe_id ≠ r.recipe_id) := by
  intro x hx
  obtain ⟨y, hy, hxy⟩ := List.mem_map.mp hx
  by_cases hyid : y.id = r.id
  · left
    rw [if_pos hyid] at hxy
    exact hxy.symm
  · right
    rw [if_neg hyid] at hxy
    rw [← hxy]
    have hne : y ≠ r := fun hc => hyid (by rw [hc])
    refine ⟨hy, hne, ?_⟩
    have hsymm : Symmetric RecipeRel := by
      intro a b hab
      exact ⟨Ne.symm hab.1, Ne.symm hab.2⟩
    exact (hwf.forall hsymm hy hmem hne).2

/-- The save performed by the handlers preserves the unique-column
well-formedness of the recipe table. -/
theorem wf_after_save (l : List Recipe) (r r' : Recipe)
    (hwf : l.Pairwise RecipeRel) (hmem : r ∈ l)
    (hid : r'.id = r.id) (hrid : r'.recipe_id = r.recipe_id) :
    (l.map (fun y => if y.id = r.id then r' else y)).Pairwise RecipeRel := by
  have hsymm : Symmetric RecipeRel := by
    intro a b hab
    exact ⟨Ne.symm hab.1, Ne.symm hab.2⟩
  have key : ∀ y ∈ l, y.id = r.id → y = r := by
    intro y hy hyid
    by_contra hne
    exact (hwf.forall hsymm hy hmem hne).1 hyid
  have congr1 : l.map (fun y => if y.id = r.id then r' else y)
      = l.map (fun y => if y = r then r' else y) := by
    apply List.map_congr_left
    intro y hy
    by_cases hyid : y.id = r.id
    · rw [if_pos hyid, if_pos (key y hy hyid)]
    · rw [if_neg hyid, if_neg (fun hc => hyid (by rw [hc]))]
  rw [congr1, List.pairwise_map]
  refine hwf.imp ?_
  intro a b hab
  constructor
  · by_cases ha : a = r <;> by_cases hb : b = r <;>
      simp only [ha, hb, if_pos, if_neg, hid] <;> simp_all [RecipeRel]
  · by_cases ha : a = r <;> by_cases hb : b = r <;>
      simp only [ha, hb, if_pos, if_neg, hrid] <;> simp_all [RecipeRel]

theorem inv_after_save (recipes : List Recipe) (phase : String → Phase)
    (rid : String) (r : Recipe) (b : Bool) (p : Phase)
    (hwf : recipes.Pairwise RecipeRel)
    (hr : (recipes.filter (fun x => x.recipe_id == rid)).head? = some r)
    (hok : phaseOk p b = true)
    (hinv : ∀ rec ∈ recipes, phaseOk (phase rec.recipe_id) rec.enabled = true) :
    ∀ rec ∈ recipes.map (fun x => if x.id = r.id then { r with enabled := b } else x),
      phaseOk ((fun s => if s = rid then p else phase s) rec.recipe_id) rec.enabled = true := by
  have hmem := (head_filter_some _ _ _ hr).1
  have hrrid : r.recipe_id = rid := by
    have := (head_filter_some _ _ _ hr).2
    simpa using this
  intro rec hrec
  rcases mem_save_elim recipes r { r with enabled := b } hwf hmem rfl rec hrec with
    hre | ⟨hin, hne, hnrid⟩
  · rw [hre]
    simp only [hrrid, if_pos rfl]
    exact hok
  · have hnn : rec.recipe_id ≠ rid := by rw [← hrrid]; exact hnrid
    simp only [if_neg hnn]
    exact hinv rec hin

theorem inv_after_phase_update (recipes : List Recipe) (phase : String → Phase)
    (rid : String) (p : Phase)
    (h : ∀ rec ∈ recipes, rec.recipe_id = rid → phaseOk p rec.enabled = true)
    (hinv : ∀ rec ∈ recipes, phaseOk (phase rec.recipe_id) rec.enabled = true) :
    ∀ rec ∈ recipes,
      phaseOk ((fun s => if s = rid then p else phase s) rec.recipe_id) rec.enabled = true := by
  intro rec hrec
  by_cases hc : rec.recipe_id = rid
  · simp only [if_pos hc]
    exact h rec hrec hc
  · simp only [if_neg hc]
    exact hinv rec hrec

theorem phaseOk_total_trustDenied (b : Bool) : phaseOk Phase.trustDenied b = true := rfl

theorem phaseOk_total_trustUpdateSucceeded (b : Bool) :
    phaseOk Phase.trustUpdateSucceeded b = true := rfl

/-- One workflow step keeps the recipe table well-formed and keeps every
recipe's `enabled` flag consistent with its (ghost) phase. -/
theorem mstep_preserves (m : MState) (e : Ev)
    (hwf : RecipesWF m.db) (hinv : InvHolds m) :
    RecipesWF (mstep m e).db ∧ InvHolds (mstep m e) := by
  cases e with
  | error rid err ts ch =>
    simp only [mstep, handleDB, phaseTarget, recipe_error, InvHolds] at *
    split
    · rename_i heq
      refine ⟨hwf, ?_⟩
      refine inv_after_phase_update _ _ _ _ ?_ hinv
      intro rec hrec hrid
      have hq : (m.db.recipes.filter (fun x => x.recipe_id == rid)).head? = none := heq
      have := head_filter_none _ _ hq rec hrec
      rw [hrid] at this
      simp at this
    · rename_i r heq
      have hl : (m.db.recipes.filter (fun x => x.recipe_id == rid)).head? = some r := heq
      refine ⟨?_, ?_⟩
      · exact wf_after_save _ r { r with enabled := false } hwf
          (head_filter_some _ _ _ hl).1 rfl rfl
      · exact inv_after_save _ _ rid r false Phase.errorReported hwf hl rfl hinv
  | trustUpdate id uid ch =>
    simp only [mstep, handleDB, phaseTarget, recipe_trust_update, InvHolds] at *
    split
    · exact ⟨hwf, hinv⟩
    · rename_i eo heq
      split
      · rename_i r hff
        have hl : (m.db.recipes.filter
            (fun x => x.recipe_id == eo.recipe_id)).head? = some r := hff
        refine ⟨?_, ?_⟩
        · exact wf_after_save _ r { r with enabled := true } hwf
            (head_filter_some _ _ _ hl).1 rfl rfl
        · exact inv_after_save _ _ eo.recipe_id r true Phase.trustUpdateRequested hwf hl rfl hinv
      · exact ⟨hwf, hinv⟩
  | trustDeny id =>
    simp only [mstep, handleDB, phaseTarget, recipe_trust_deny, InvHolds] at *
    split
    · exact ⟨hwf, hinv⟩
    · rename_i eo heq
      refine ⟨hwf, ?_⟩
      refine inv_after_phase_update _ _ _ _ ?_ hinv
      intro rec hrec hrid
      exact phaseOk_total_trustDenied _
  | trustUpdateSuccess rid msg eid =>
    simp only [mstep, handleDB, phaseTarget, recipe_trust_update_success, InvHolds] at *
    split
    · exact ⟨hwf, hinv⟩
    · rename_i eo heq
      refine ⟨hwf, ?_⟩
      refine inv_after_phase_update _ _ _ _ ?_ hinv
      intro rec hrec hrid
      exact phaseOk_total_trustUpdateSucceeded _
  | trustUpdateFailed rid msg ts ch =>
    simp only [mstep, handleDB, phaseTarget, recipe_trust_update_failed, InvHolds] at *
    split
    · exact ⟨hwf, hinv⟩
    · rename_i eo heq
      split
      · rename_i hff
        refine ⟨hwf, ?_⟩
        refine inv_after_phase_update _ _ _ _ ?_ hinv
        intro rec hrec hrid
        have hq : (m.db.recipes.filter
            (fun x => x.recipe_id == eo.recipe_id)).head? = none := hff
        have := head_filter_none _ _ hq rec hrec
        rw [hrid] at this
        simp at this
      · rename_i r hff
        have hl : (m.db.recipes.filter
            (fun x => x.recipe_id == eo.recipe_id)).head? = some r := hff
        refine ⟨?_, ?_⟩
        · exact wf_after_save _ r { r with enabled := false } hwf
            (head_filter_some _ _ _ hl).1 rfl rfl
        · exact inv_after_save _ _ eo.recipe_id r false Phase.trustUpdateFailed hwf hl rfl hinv
  | trustVerifyFailed rid msg =>
    simp only [mstep, handleDB, phaseTarget, reciepe_trust_verify_failed, InvHolds] at *
    split
    · rename_i heq
      refine ⟨hwf, ?_⟩
      refine inv_after_phase_update _ _ _ _ ?_ hinv
      intro rec hrec hrid
      have hq : (m.db.recipes.filter (fun x => x.recipe_id == rid)).head? = none := heq
      have := head_filter_none _ _ hq rec hrec
      rw [hrid] at this
      simp at this
    · rename_i r heq
      have hl : (m.db.recipes.filter (fun x => x.recipe_id == rid)).head? = some r := heq
      refine ⟨?_, ?_⟩
      · exact wf_after_save _ r { r with enabled := false } hwf
          (head_filter_some _ _ _ hl).1 rfl rfl
      · exact inv_after_save _ _ rid r false Phase.trustVerifyFailed hwf hl rfl hinv

/-- Any reachable workflow state has a well-formed recipe table and
satisfies the phase/enabled invariant. -/
theorem reachable_inv (db0 : DB) (hwf : RecipesWF db0) (m : MState)
    (h : Reachable (initState db0) m) : RecipesWF m.db ∧ InvHolds m := by
  induction h with
  | base =>
    refine ⟨hwf, ?_⟩
    intro rec hrec
    rfl
  | next e hr ih => exact mstep_preserves _ e ih.1 ih.2

/-- A one-recipe database used to exercise the workflow concretely. -/
def exDB0 : DB :=
  { recipes := [{ id := 1, recipe_id := "r1", enabled := true }],
    errors := [], nextErrorId := 1 }

/-- The workflow state after recipe `r1` reports an error. -/
def exM1 : MState :=
  mstep (initState exDB0) (Ev.error "r1" "boom" (some "t1") (some "c1"))

/-- The workflow state after the operator then requests a trust update
for error 1 (the background action has not yet reported back). -/
def exM2 : MState :=
  mstep exM1 (Ev.trustUpdate 1 "u1" "chan")

/-- C2 (amended): over every reachable state of the trust workflow, a
recipe whose phase is ErrorReported, TrustUpdateFailed or
TrustVerifyFailed has `enabled = false`, and a recipe whose phase is
TrustUpdateRequested has `enabled = true`: the flag is restored at the
moment a trust update is requested (optimistically), not only after the
update succeeds. -/
theorem trust_workflow_enabled_invariant (db0 : DB) (m : MState)
    (hwf : RecipesWF db0) (h : Reachable (initState db0) m) :
    ∀ rec ∈ m.db.recipes, phaseOk (m.phase rec.recipe_id) rec.enabled = true :=
  (reachable_inv db0 hwf m h).2

/-- Witness for the amended C2 invariant: the concrete two-step run
satisfies its hypotheses and its conclusion at recipe `r1`. -/
theorem trust_workflow_enabled_invariant_witness :
    RecipesWF exDB0 ∧ phaseOk (exM2.phase "r1") true = true :=
  ⟨by simp [RecipesWF, exDB0],
    trust_workflow_enabled_invariant exDB0 exM2 (by simp [RecipesWF, exDB0])
      (Reachable.next _ (Reachable.next _ Reachable.base))
      { id := 1, recipe_id := "r1", enabled := true } (by decide)⟩

/-- C2 as stated is false on the code: after an error is reported and a
trust update is then requested, the state is reachable, the error
message is still unresolved (still on file), the recipe's trust action
is pending (phase TrustUpdateRequested, outcome unknown), and yet the
recipe's `enabled` field is `true` — the code enables the recipe at
request time, not after a successful trust update. -/
theorem trust_workflow_claim_counterexample :
    Reachable (initState exDB0) exM2 ∧
    exM2.db.errors ≠ [] ∧
    exM2.phase "r1" = Phase.trustUpdateRequested ∧
    filterFirstRecipe exM2.db "r1" = some { id := 1, recipe_id := "r1", enabled := true } :=
  ⟨Reachable.next _ (Reachable.next _ Reachable.base), by decide, by decide, by decide⟩

/-! ## Behaviour of the individual handlers -/

theorem updateErrorSlack_fresh (l : List ErrorMessage) (em : ErrorMessage)
    (ts ch : Option String) (hfresh : ∀ e ∈ l, e.id ≠ em.id) :
    (l ++ [em]).map
        (fun e => if e.id = em.id then { e with slack_ts := ts, slack_channel := ch } else e)
      = l ++ [{ em with slack_ts := ts, slack_channel := ch }] := by
  rw [List.map_append]
  congr 1
  · have hsame : ∀ e ∈ l,
        (if e.id = em.id then { e with slack_ts := ts, slack_channel := ch } else e) = id e :=
      fun e he => if_neg (hfresh e he)
    rw [List.map_congr_left hsame, List.map_id]
  · simp

/-- A database with no Recipe rows at all. -/
def exDBnoRecipe : DB := { recipes := [], errors := [], nextErrorId := 5 }

/-- C3 as stated is false on the code: reporting an error for a missing
recipe is not tolerated — the ErrorMessage record IS written (with the
correlation handles), the notification is sent, and the disable step
then raises `AttributeError` (attribute assignment on `None`), which
propagates. -/
theorem recipe_error_missing_counterexample :
    (recipe_error exDBnoRecipe "ghost" "boom" (some "t") (some "c")).outcome
        = Except.error "AttributeError" ∧
    (recipe_error exDBnoRecipe "ghost" "boom" (some "t") (some "c")).db.errors
        = [{ id := 5, recipe_id := "ghost", slack_ts := some "t", slack_channel := some "c" }] ∧
    (recipe_error exDBnoRecipe "ghost" "boom" (some "t") (some "c")).notifs
        = [Notif.recipeErrorMsg "ghost" 5 (ErrVal.str "boom")] :=
  ⟨by decide, by decide, by decide⟩

/-- C3 (amended): when no Recipe row matches the reported `recipe_id`,
the notification is still sent and the ErrorMessage row (with the
returned correlation handles) is still written, but the handler does not
tolerate the missing recipe: the disable step raises `AttributeError`,
which propagates to the caller; the Recipe table is unchanged. -/
theorem recipe_error_missing_recipe (db : DB) (rid err : String) (ts ch : Option String)
    (hmiss : filterFirstRecipe db rid = none)
    (hfresh : ∀ e ∈ db.errors, e.id ≠ db.nextErrorId) :
    (recipe_error db rid err ts ch).outcome = Except.error "AttributeError" ∧
    (recipe_error db rid err ts ch).db.errors
      = db.errors ++
        [{ id := db.nextErrorId, recipe_id := rid, slack_ts := ts, slack_channel := ch }] ∧
    (recipe_error db rid err ts ch).notifs
      = [Notif.recipeErrorMsg rid db.nextErrorId (parse_error rid err)] ∧
    (recipe_error db rid err ts ch).db.recipes = db.recipes := by
  simp only [recipe_error, createError, updateErrorSlack]
  split
  · refine ⟨by trivial, ?_, by trivial, by trivial⟩
    exact updateErrorSlack_fresh db.errors
      { id := db.nextErrorId, recipe_id := rid, slack_ts := none, slack_channel := none }
      ts ch hfresh
  · rename_i r heq
    have h2 : filterFirstRecipe db rid = some r := heq
    rw [hmiss] at h2
    exact absurd h2 (by simp)

/-- C4: requesting a trust update when the ErrorMessage exists and a
matching Recipe exists queues one background run of the external tool
with arguments `--recipe-identifier <recipe_id> --action trust
--error_id <id>` and immediately sets the recipe's `enabled` to true,
before any outcome of the background action is known; the ErrorMessage
table is untouched. -/
theorem recipe_trust_update_dispatch (db : DB) (id : Nat) (uid ch : String)
    (eo : ErrorMessage) (r : Recipe)
    (hget : getOneError db (fun e => e.id == id) = .ok eo)
    (hrec : filterFirstRecipe db eo.recipe_id = some r) :
    (recipe_trust_update db id uid ch).tasks
      = [⟨["--recipe-identifier", eo.recipe_id, "--action", "trust",
            "--error_id", toString id]⟩] ∧
    (recipe_trust_update db id uid ch).outcome = Except.ok () ∧
    filterFirstRecipe (recipe_trust_update db id uid ch).db eo.recipe_id
      = some { r with enabled := true } ∧
    (recipe_trust_update db id uid ch).db.errors = db.errors := by
  simp only [recipe_trust_update, hget, hrec]
  refine ⟨by trivial, by trivial, ?_, by trivial⟩
  exact head_filter_save db.recipes eo.recipe_id r { r with enabled := true } rfl rfl hrec

/-- A database holding one disabled recipe and its open error row. -/
def exDBtrust : DB :=
  { recipes := [{ id := 2, recipe_id := "r2", enabled := false }],
    errors := [{ id := 7, recipe_id := "r2", slack_ts := some "t", slack_channel := some "c" }],
    nextErrorId := 8 }

theorem recipe_trust_update_dispatch_witness :
    (recipe_trust_update exDBtrust 7 "u" "ch").tasks
      = [⟨["--recipe-identifier", "r2", "--action", "trust", "--error_id", "7"]⟩] ∧
    filterFirstRecipe (recipe_trust_update exDBtrust 7 "u" "ch").db "r2"
      = some { id := 2, recipe_id := "r2", enabled := true } :=
  let H := recipe_trust_update_dispatch exDBtrust 7 "u" "ch"
    { id := 7, recipe_id := "r2", slack_ts := some "t", slack_channel := some "c" }
    { id := 2, recipe_id := "r2", enabled := false } (by decide) (by decide)
  ⟨H.1, H.2.2.1⟩

/-- A database with an orphan error row (its recipe does not exist). -/
def exDBorphan : DB :=
  { recipes := [],
    errors := [{ id := 11, recipe_id := "r9", slack_ts := none, slack_channel := none }],
    nextErrorId := 12 }

/-- C8: a trust-update request whose ErrorMessage exists but whose
Recipe row is missing sends one ephemeral notice addressed to the
requesting user only, queues no background task, and performs no record
mutation at all. -/
theorem recipe_trust_update_missing_recipe (db : DB) (id : Nat) (uid ch : String)
    (eo : ErrorMessage)
    (hget : getOneError db (fun e => e.id == id) = .ok eo)
    (hmiss : filterFirstRecipe db eo.recipe_id = none) :
    (recipe_trust_update db id uid ch).db = db ∧
    (recipe_trust_update db id uid ch).notifs
      = [Notif.missingRecipeEphemeral uid ch eo.recipe_id] ∧
    (recipe_trust_update db id uid ch).tasks = [] := by
  simp only [recipe_trust_update, hget, hmiss]
  exact ⟨by trivial, by trivial, by trivial⟩

theorem recipe_trust_update_missing_recipe_witness :
    (recipe_trust_update exDBorphan 11 "u9" "c9").db = exDBorphan ∧
    (recipe_trust_update exDBorphan 11 "u9" "c9").notifs
      = [Notif.missingRecipeEphemeral "u9" "c9" "r9"] ∧
    (recipe_trust_update exDBorphan 11 "u9" "c9").tasks = [] :=
  recipe_trust_update_missing_recipe exDBorphan 11 "u9" "c9"
    { id := 11, recipe_id := "r9", slack_ts := none, slack_channel := none }
    (by decide) (by decide)

/-- A database holding one orphan error row for recipe `r3`. -/
def exDBerrOnly : DB :=
  { recipes := [],
    errors := [{ id := 3, recipe_id := "r3", slack_ts := none, slack_channel := none }],
    nextErrorId := 4 }

/-- C5 as stated is false on the code: an ErrorMessage for the given
recipe_id exists, the failure notification is sent and the handles
stored, but the handler then raises `AttributeError` at the disable step
because no Recipe row matches — it does not complete the claimed
actions. -/
theorem trust_update_failed_counterexample :
    (recipe_trust_update_failed exDBerrOnly "r3" "m" (some "t") (some "c")).outcome
      = Except.error "AttributeError" ∧
    (recipe_trust_update_failed exDBerrOnly "r3" "m" (some "t") (some "c")).notifs
      = [Notif.updateTrustErrorMsg "m" 3] :=
  ⟨by decide, by decide⟩

/-- C5 (amended): when exactly one ErrorMessage row exists for the given
recipe_id (the ORM `get` raises on zero or several) and a matching
Recipe row exists, the failed-update callback sends the failure
notification, stores the newly returned correlation handles on that
ErrorMessage, and sets the recipe's `enabled` back to false. -/
theorem trust_update_failed_ok (db : DB) (rid msg : String)
    (ts ch : Option String) (eo : ErrorMessage) (r : Recipe)
    (hget : getOneError db (fun e => e.recipe_id == rid) = .ok eo)
    (hrec : filterFirstRecipe db eo.recipe_id = some r) :
    (recipe_trust_update_failed db rid msg ts ch).outcome = Except.ok () ∧
    (recipe_trust_update_failed db rid msg ts ch).notifs
      = [Notif.updateTrustErrorMsg msg eo.id] ∧
    (recipe_trust_update_failed db rid msg ts ch).db.errors
      = db.errors.map (fun e =>
          if e.id = eo.id then { e with slack_ts := ts, slack_channel := ch } else e) ∧
    filterFirstRecipe (recipe_trust_update_failed db rid msg ts ch).db eo.recipe_id
      = some { r with enabled := false } := by
  simp only [recipe_trust_update_failed, hget]
  split
  · rename_i hff
    have h2 : filterFirstRecipe db eo.recipe_id = none := hff
    rw [hrec] at h2
    exact absurd h2 (by simp)
  · rename_i r2 hff
    have h2 : filterFirstRecipe db eo.recipe_id = some r2 := hff
    rw [hrec] at h2
    have hr2 : r2 = r := by simpa using h2.symm
    subst hr2
    refine ⟨by trivial, by trivial, by trivial, ?_⟩
    exact head_filter_save db.recipes eo.recipe_id r2 { r2 with enabled := false } rfl rfl hrec

/-- A database with one enabled recipe and one open error row for it. -/
def exDBfail : DB :=
  { recipes := [{ id := 4, recipe_id := "r4", enabled := true }],
    errors := [{ id := 9, recipe_id := "r4", slack_ts := some "t0", slack_channel := some "c0" }],
    nextErrorId := 10 }

theorem trust_update_failed_ok_witness :
    (recipe_trust_update_failed exDBfail "r4" "m" (some "t1") (some "c1")).outcome
      = Except.ok () ∧
    filterFirstRecipe (recipe_trust_update_failed exDBfail "r4" "m" (some "t1") (some "c1")).db
        "r4"
      = some { id := 4, recipe_id := "r4", enabled := false } :=
  let H := trust_update_failed_ok exDBfail "r4" "m" (some "t1") (some "c1")
    { id := 9, recipe_id := "r4", slack_ts := some "t0", slack_channel := some "c0" }
    { id := 4, recipe_id := "r4", enabled := true } (by decide) (by decide)
  ⟨H.1, H.2.2.2⟩

/-- C7 as stated is false on the code: with no Recipe row present, the
verify-failed callback creates the ErrorMessage and sends the
notification, but then raises `AttributeError` at the disable step —
there is a precondition (the recipe must exist) for the operation to
complete. -/
theorem trust_verify_failed_counterexample :
    (reciepe_trust_verify_failed exDBnoRecipe "ghost" "diff").outcome
      = Except.error "AttributeError" ∧
    (reciepe_trust_verify_failed exDBnoRecipe "ghost" "diff").db.errors
      = [{ id := 5, recipe_id := "ghost", slack_ts := none, slack_channel := none }] ∧
    (reciepe_trust_verify_failed exDBnoRecipe "ghost" "diff").notifs
      = [Notif.trustDiffMsg "diff" 5] :=
  ⟨by decide, by decide, by decide⟩

/-- C7 (amended): when a Recipe row matching the reported recipe_id
exists, the verify-failed callback creates a new ErrorMessage row,
sends the trust-diff notification, and sets the recipe's `enabled` to
false. -/
theorem trust_verify_failed_ok (db : DB) (rid msg : String) (r : Recipe)
    (hrec : filterFirstRecipe db rid = some r) :
    (reciepe_trust_verify_failed db rid msg).outcome = Except.ok () ∧
    (reciepe_trust_verify_failed db rid msg).db.errors
      = db.errors ++
        [{ id := db.nextErrorId, recipe_id := rid, slack_ts := none, slack_channel := none }] ∧
    (reciepe_trust_verify_failed db rid msg).notifs
      = [Notif.trustDiffMsg msg db.nextErrorId] ∧
    filterFirstRecipe (reciepe_trust_verify_failed db rid msg).db rid
      = some { r with enabled := false } := by
  simp only [reciepe_trust_verify_failed, createError]
  split
  · rename_i hff
    have h2 : filterFirstRecipe db rid = none := hff
    rw [hrec] at h2
    exact absurd h2 (by simp)
  · rename_i r2 hff
    have h2 : filterFirstRecipe db rid = some r2 := hff
    rw [hrec] at h2
    have hr2 : r2 = r := by simpa using h2.symm
    subst hr2
    refine ⟨by trivial, by trivial, by trivial, ?_⟩
    exact head_filter_save db.recipes rid r2 { r2 with enabled := false } rfl rfl hrec

theorem trust_verify_failed_ok_witness :
    (reciepe_trust_verify_failed exDB0 "r1" "diff").outcome = Except.ok () ∧
    filterFirstRecipe (reciepe_trust_verify_failed exDB0 "r1" "diff").db "r1"
      = some { id := 1, recipe_id := "r1", enabled := false } :=
  let H := trust_verify_failed_ok exDB0 "r1" "diff"
    { id := 1, recipe_id := "r1", enabled := true } (by decide)
  ⟨H.1, H.2.2.2⟩

/-! ## Claims about the error-text parsing -/

/-- C1 as stated is false on the code: the error string "boom" contains
zero ": " separators, yet no exception is raised — Python's `reduce`
over the one-element list returns the element itself — so the value
passed onward is the bare string, not the flat one-entry mapping from
the recipe id to the text. -/
theorem parse_error_zero_sep_counterexample :
    parse_error "r1" "boom" = ErrVal.str "boom" ∧
    parse_error "r1" "boom" ≠ ErrVal.dict "r1" (ErrVal.str "boom") :=
  ⟨by decide, by decide⟩

/-- C1 (amended): for every error string with zero ": " separators (the
split yields a single segment), the parsed value passed onward is the
bare error text itself — not a mapping of any shape; the exception
fallback that would build the flat one-entry mapping is unreachable for
string input. -/
theorem parse_error_zero_sep (rid error s : String)
    (h : pySplit ": " error = [s]) :
    parse_error rid error = ErrVal.str error ∧
    ∀ k v, parse_error rid error ≠ ErrVal.dict k v := by
  have hse : s = error := by
    have h' : (splitGo (": ".data) error.data.length [] error.data).map
        (fun l => (⟨l⟩ : String)) = [s] := h
    cases hg : splitGo (": ".data) error.data.length [] error.data with
    | nil => exact absurd hg (splitGo_ne_nil _ _ _ _)
    | cons l t =>
      rw [hg] at h'
      cases t with
      | nil =>
        simp only [List.map_cons, List.map_nil, List.cons.injEq, and_true] at h'
        have hld : l = error.data := by simpa using splitGo_eq_singleton _ _ _ _ _ hg
        rw [← h', hld]
      | cons l2 t2 => simp at h'
  have hp : parse_error rid error = ErrVal.str s := by
    simp only [parse_error, h, List.reverse_cons, List.reverse_nil, List.nil_append,
      List.foldl_nil]
  rw [hse] at hp
  refine ⟨hp, ?_⟩
  rw [hp]
  intro k v hc
  exact ErrVal.noConfusion hc

theorem parse_error_zero_sep_witness :
    pySplit ": " "boom" = ["boom"] ∧ parse_error "r9" "boom" = ErrVal.str "boom" :=
  ⟨by decide, (parse_error_zero_sep "r9" "boom" "boom" (by decide)).1⟩

/-- C6: an error string with at least one ": " separator parses to the
right-fold of its segments into nested single-key mappings — the key
path of the parsed value, outermost key first, is exactly the segment
list minus its final element, and the innermost value is the final
segment (so "A: B: C" parses with key path A then B and innermost value
"C", and joining the key path with ": " reconstructs the original key
sequence). -/
theorem parse_error_nested (rid error : String) (l : List String)
    (hl : pySplit ": " error = l) (h2 : 2 ≤ l.length) :
    errKeys (parse_error rid error) = l.dropLast ∧
    errInner (parse_error rid error) = l.getLastD "" := by
  cases hr : l.reverse with
  | nil =>
    rw [List.reverse_eq_nil_iff] at hr
    subst hr
    simp at h2
  | cons h t =>
    have hl2 : l = t.reverse ++ [h] := by
      have := congrArg List.reverse hr
      simpa using this
    have hp : parse_error rid error
        = t.foldl (fun x y => ErrVal.dict y x) (ErrVal.str h) := by
      simp only [parse_error, hl, hr]
    rw [hp, errKeys_foldl, errInner_foldl]
    constructor
    · simp [errKeys, hl2, List.dropLast_concat]
    · simp [errInner, hl2]

theorem parse_error_nested_witness :
    pySplit ": " "A: B: C" = ["A", "B", "C"] ∧
    errKeys (parse_error "R" "A: B: C") = ["A", "B"] ∧
    errInner (parse_error "R" "A: B: C") = "C" := by
  refine ⟨by decide, ?_, ?_⟩
  · have := (parse_error_nested "R" "A: B: C" ["A", "B", "C"] (by decide) (by decide)).1
    simpa using this
  · have := (parse_error_nested "R" "A: B: C" ["A", "B", "C"] (by decide) (by decide)).2
    simpa using this

/-! ## The command runner (`utils.run_process_async`) -/

/-- A Python argument value as far as the runner's type check cares:
either a `str`, or any non-string value (e.g. a pre-tokenized list). -/
inductive PyVal where
  | str : String → PyVal
  | nonStr : PyVal
  deriving DecidableEq, Repr

/-- Python's `text.strip()`: surrounding whitespace removed. -/
def pyStrip (s : String) : String :=
  ⟨((s.data.dropWhile Char.isWhitespace).reverse.dropWhile Char.isWhitespace).reverse⟩

/-- What the spawned process produced: the decoded output streams and
the real exit code.  `communicate()` yields `None` for a stream that was
not piped, which the code guards against for stderr. -/
structure ProcOutcome where
  stdout : String
  stderr : Option String
  returncode : Int
  deriving DecidableEq, Repr

/-- The result dictionary `run_process_async` builds. -/
structure RunResult where
  stdout : String
  stderr : Option String
  status : Int
  success : Bool
  deriving DecidableEq, Repr

/-- `utils.run_process_async`: raise `TypeError` unless the command is a
`str`; otherwise run the command (the process behaviour is the `proc`
argument) and package the stripped streams, the exit code and the
derived success flag. -/
def run_process_async (command : PyVal) (proc : ProcOutcome) : Except String RunResult :=
  match command with
  | .nonStr => .error "TypeError: Command must be a str type"
  | .str _ =>
    .ok { stdout := pyStrip proc.stdout,
          stderr := match proc.stderr with
            | some s => some (pyStrip s)
            | none => none,
          status := proc.returncode,
          success := proc.returncode == 0 }

/-- C9: a non-string command raises a type error; a string command
returns the process's decoded output streams trimmed of surrounding
whitespace, `status` equal to the process's real exit code, and a
`success` flag that is true exactly when the exit code is zero. -/
theorem run_process_async_spec (command : PyVal) (proc : ProcOutcome) :
    (command = PyVal.nonStr →
      run_process_async command proc = .error "TypeError: Command must be a str type") ∧
    (∀ s, command = PyVal.str s →
      ∃ res, run_process_async command proc = .ok res ∧
        res.stdout = pyStrip proc.stdout ∧
        res.stderr = proc.stderr.map pyStrip ∧
        res.status = proc.returncode ∧
        (res.success = true ↔ proc.returncode = 0)) := by
  constructor
  · intro hc
    subst hc
    rfl
  · intro s hc
    subst hc
    refine ⟨_, rfl, rfl, ?_, rfl, ?_⟩
    · cases proc.stderr <;> rfl
    · simp [run_process_async]

theorem run_process_async_spec_witness :
    run_process_async PyVal.nonStr { stdout := "", stderr := none, returncode := 0 }
      = Except.error "TypeError: Command must be a str type" ∧
    ∃ res, run_process_async (PyVal.str "false")
        { stdout := " out \n", stderr := some "", returncode := 1 } = Except.ok res ∧
      res.success = false ∧ res.status = 1 ∧ res.stdout = "out" := by
  constructor
  · exact (run_process_async_spec PyVal.nonStr ⟨"", none, 0⟩).1 rfl
  · obtain ⟨res, hok, h1, h2, h3, h4⟩ :=
      (run_process_async_spec (PyVal.str "false") ⟨" out \n", some "", 1⟩).2 "false" rfl
    refine ⟨res, hok, ?_, h3, ?_⟩
    · cases hsb : res.success
      · rfl
      · exact absurd (h4.mp hsb) (by decide)
    · rw [h1]
      decide

/-! ## The redaction helper (`utils.replace_sensitive_strings`)

The code interpolates the configured secrets (and any caller-supplied
extras) into one regular expression, alternated with the bearer-token
pattern, and runs `re.sub(pattern, '<redacted>', message)`.  The
fragment of Python's regex language this pattern construction can use —
literal characters, the escapes \s and \w, character classes, the
greedy one-or-more postfix `+` with backtracking, `.` and top-level
alternation — is embedded below; a pattern string using anything else
fails to compile (`none`). -/

/-- A single item of a character class `[...]`. -/
inductive CItem where
  | ch : Char → CItem
  | wordClass : CItem
  | spaceClass : CItem
  deriving DecidableEq, Repr

/-- A single-character matcher. -/
inductive RTok where
  | ch : Char → RTok
  | any : RTok
  | word : RTok
  | space : RTok
  | cls : List CItem → RTok
  deriving DecidableEq, Repr

/-- One piece of a branch: a single-character matcher, optionally
carrying the greedy `+` postfix. -/
structure RPiece where
  tok : RTok
  plus : Bool
  deriving DecidableEq, Repr

/-- Python's `\w` (ASCII view): letters, digits, underscore. -/
def isWordChar (c : Char) : Bool := c.isAlphanum || c = '_'

def citemMatch : CItem → Char → Bool
  | .ch a, c => a = c
  | .wordClass, c => isWordChar c
  | .spaceClass, c => c.isWhitespace

def tokMatch : RTok → Char → Bool
  | .ch a, c => a = c
  | .any, c => c != '\n'
  | .word, c => isWordChar c
  | .space, c => c.isWhitespace
  | .cls items, c => items.any (fun it => citemMatch it c)

/-- Greedy `+` continuation: one character is already consumed by the
caller; consume as many further `t`-characters as possible, retreating
one at a time until the continuation `k` succeeds. -/
def plusLoop (t : RTok) (k : List Char → Option (List Char)) : List Char → Option (List Char)
  | [] => k []
  | c :: cs =>
    if tokMatch t c then
      match plusLoop t k cs with
      | some r => some r
      | none => k (c :: cs)
    else k (c :: cs)

/-- Match one branch (one regex alternative) at the head of `s`,
returning the remaining suffix on success — Python's greedy,
backtracking semantics for this fragment. -/
def matchPieces : List RPiece → List Char → Option (List Char)
  | [], s => some s
  | p :: ps, s =>
    match s with
    | [] => none
    | c :: cs =>
      if tokMatch p.tok c then
        if p.plus then plusLoop p.tok (fun s2 => matchPieces ps s2) cs
        else matchPieces ps cs
      else none

/-- Try the alternatives in order: Python's alternation takes the first
branch that matches at the current position. -/
def matchAlts : List (List RPiece) → List Char → Option (List Char)
  | [], _ => none
  | br :: rest, s =>
    match matchPieces br s with
    | some r => some r
    | none => matchAlts rest s

/-- `re.sub(pattern, repl, text)`: scan left to right, replacing each
leftmost non-overlapping match; a zero-width match is replaced and the
scan then advances one character; a final zero-width match at the end of
the text is replaced too.  Fuel is the text length — each step consumes
at least one character. -/
def subGo (pat : List (List RPiece)) (repl : List Char) : Nat → List Char → List Char
  | _, [] =>
    match matchAlts pat [] with
    | some _ => repl
    | none => []
  | 0, s => s
  | fuel + 1, c :: cs =>
    match matchAlts pat (c :: cs) with
    | none => c :: subGo pat repl fuel cs
    | some r =>
      if r.length == (c :: cs).length then repl ++ c :: subGo pat repl fuel cs
      else repl ++ subGo pat repl fuel r

/-- Split a pattern string at top-level `|`; a `|` inside `[...]` is a
literal class member, and an escaped character never opens or closes a
class. -/
def splitAlts : List Char → Bool → List Char → List (List Char)
  | [], _, acc => [acc.reverse]
  | '|' :: rest, false, acc => acc.reverse :: splitAlts rest false []
  | '[' :: rest, _, acc => splitAlts rest true ('[' :: acc)
  | ']' :: rest, _, acc => splitAlts rest false (']' :: acc)
  | '\\' :: c :: rest, inCls, acc => splitAlts rest inCls (c :: '\\' :: acc)
  | c :: rest, inCls, acc => splitAlts rest inCls (c :: acc)

/-- Parse the items of a character class, after the opening `[`, up to
the closing `]`.  Escaped letters other than \w and \s are outside the
embedded fragment. -/
def parseClass : List Char → Option (List CItem × List Char)
  | [] => none
  | ']' :: rest => some ([], rest)
  | '\\' :: c :: rest =>
    match c with
    | 'w' =>
      match parseClass rest with
      | some (items, r) => some (CItem.wordClass :: items, r)
      | none => none
    | 's' =>
      match parseClass rest with
      | some (items, r) => some (CItem.spaceClass :: items, r)
      | none => none
    | _ =>
      if c.isAlpha then none
      else
        match parseClass rest with
        | some (items, r) => some (CItem.ch c :: items, r)
        | none => none
  | c :: rest =>
    match parseClass rest with
    | some (items, r) => some (CItem.ch c :: items, r)
    | none => none

/-- Parse one single-character matcher from the head of a branch.
`*`, `?`, `(`, `)`, a dangling quantifier and escaped letters other
than \w and \s are outside the embedded fragment. -/
def parseTok : List Char → Option (RTok × List Char)
  | [] => none
  | '\\' :: c :: rest =>
    match c with
    | 'w' => some (RTok.word, rest)
    | 's' => some (RTok.space, rest)
    | _ => if c.isAlpha then none else some (RTok.ch c, rest)
  | '\\' :: [] => none
  | '[' :: rest =>
    match parseClass rest with
    | some (items, r) => some (RTok.cls items, r)
    | none => none
  | '.' :: rest => some (RTok.any, rest)
  | c :: rest =>
    if c = '*' ∨ c = '?' ∨ c = '(' ∨ c = ')' ∨ c = '+' ∨ c = '|' then none
    else some (RTok.ch c, rest)

/-- Parse one alternation branch into its pieces, reading an optional
`+` after each matcher.  Fuel is the branch length. -/
def parseBranch : Nat → List Char → Option (List RPiece)
  | _, [] => some []
  | 0, _ :: _ => none
  | fuel + 1, cs =>
    match parseTok cs with
    | none => none
    | some (t, r) =>
      match r with
      | '+' :: r2 =>
        match parseBranch fuel r2 with
        | some ps => some (⟨t, true⟩ :: ps)
        | none => none
      | _ =>
        match parseBranch fuel r with
        | some ps => some (⟨t, false⟩ :: ps)
        | none => none

/-- Compile a pattern string: the top-level alternation of its parsed
branches. -/
def compilePattern (p : String) : Option (List (List RPiece)) :=
  (splitAlts p.data false []).mapM (fun b => parseBranch b.length b)

/-- The fixed bearer-token pattern the code alternates with the
secrets: `bearer`, one whitespace character, then one or more word
characters, `+`, `.` or `-`. -/
def bearerPattern : String := "bearer\\s[\\w+.-]+"

/-- The joined pattern string handed to `re.sub`: the five configured
secrets, the bearer pattern, then any caller-supplied extras. -/
def buildPattern (api_password api_user dp1_user dp1_password redaction_strings : String)
    (sensitive_strings : Option String) : String :=
  let d := api_password ++ "|" ++ api_user ++ "|" ++ dp1_user ++ "|" ++ dp1_password
    ++ "|" ++ redaction_strings ++ "|" ++ bearerPattern
  match sensitive_strings with
  | some e => d ++ "|" ++ e
  | none => d

/-- `utils.replace_sensitive_strings`: build the alternation from the
configured secrets, the bearer pattern and the extras, and substitute
every leftmost match with the placeholder.  `none` means the joined
pattern uses regex features beyond the embedded fragment. -/
def replace_sensitive_strings (api_password api_user dp1_user dp1_password
    redaction_strings : String) (sensitive_strings : Option String)
    (message : String) : Option String :=
  match compilePattern (buildPattern api_password api_user dp1_user dp1_password
      redaction_strings sensitive_strings) with
  | none => none
  | some pat => some ⟨subGo pat "<redacted>".data message.data.length message.data⟩

/-- Python's `str.replace` for every occurrence of a literal substring:
split at the occurrences and re-join with the replacement. -/
def replaceAllLit (text secret repl : String) : String :=
  String.intercalate repl (pySplit secret text)

/-- Modelled from the spec's words for C10 (the configured secrets and
extras are "sensitive substrings"): replace every occurrence of each
configured secret taken literally, every bearer-token match, and every
occurrence of each caller-supplied extra substring, with the
placeholder. -/
def claimed_redaction (api_password api_user dp1_user dp1_password
    redaction_strings : String) (sensitive_strings : Option String)
    (message : String) : Option String :=
  let step1 := [api_password, api_user, dp1_user, dp1_password, redaction_strings].foldl
    (fun m s => replaceAllLit m s "<redacted>") message
  match compilePattern bearerPattern with
  | none => none
  | some bp =>
    let step2 : String := ⟨subGo bp "<redacted>".data step1.data.length step1.data⟩
    some (match sensitive_strings with
      | some e => replaceAllLit step2 e "<redacted>"
      | none => step2)

/-- No alternative matches at this or any later position of the text,
nor as the zero-width match at its very end. -/
def noMatchAll (pat : List (List RPiece)) : List Char → Bool
  | [] => (matchAlts pat []).isNone
  | c :: cs => (matchAlts pat (c :: cs)).isNone && noMatchAll pat cs

/-- `noMatchAll` lifted over pattern compilation: false when the
pattern does not compile. -/
def noMatchOpt (op : Option (List (List RPiece))) (s : List Char) : Bool :=
  match op with
  | none => false
  | some pat => noMatchAll pat s

/-- A text in which the pattern matches nowhere passes through the
substitution scan unchanged. -/
theorem subGo_no_match (pat : List (List RPiece)) (repl : List Char) (fuel : Nat)
    (s : List Char) (h : noMatchAll pat s = true) : subGo pat repl fuel s = s := by
  induction fuel generalizing s with
  | zero =>
    cases s with
    | nil =>
      simp only [noMatchAll, Option.isNone_iff_eq_none] at h
      simp [subGo, h]
    | cons c cs => rfl
  | succ n ih =>
    cases s with
    | nil =>
      simp only [noMatchAll, Option.isNone_iff_eq_none] at h
      simp [subGo, h]
    | cons c cs =>
      simp only [noMatchAll, Bool.and_eq_true, Option.isNone_iff_eq_none] at h
      obtain ⟨h1, h2⟩ := h
      simp only [subGo, h1]
      rw [ih cs h2]

/-- C10 (amended): the configured secrets and the caller-supplied extras
are interpolated into one regular expression, not matched as literal
substrings; the substitution replaces the leftmost non-overlapping regex
matches (alternatives tried in configuration order) with the
placeholder, so any message in which no alternative matches at any
position — including one containing a secret verbatim when that secret
carries regex metacharacters — is returned entirely unchanged. -/
theorem replace_sensitive_strings_no_match (p1 p2 p3 p4 p5 : String)
    (extra : Option String) (message : String)
    (hn : noMatchOpt (compilePattern (buildPattern p1 p2 p3 p4 p5 extra))
      message.data = true) :
    replace_sensitive_strings p1 p2 p3 p4 p5 extra message = some message := by
  unfold replace_sensitive_strings
  cases hc : compilePattern (buildPattern p1 p2 p3 p4 p5 extra) with
  | none =>
    rw [hc] at hn
    simp only [noMatchOpt] at hn
    exact absurd hn (by simp)
  | some pat =>
    rw [hc] at hn
    simp only [noMatchOpt] at hn
    simp only [hc, Option.some.injEq]
    rw [subGo_no_match pat _ _ _ hn]

theorem replace_sensitive_strings_no_match_witness :
    noMatchOpt (compilePattern (buildPattern "q1" "q2" "q3" "q4" "q5" none)) "hello".data
      = true ∧
    replace_sensitive_strings "q1" "q2" "q3" "q4" "q5" none "hello" = some "hello" :=
  ⟨by decide,
    replace_sensitive_strings_no_match "q1" "q2" "q3" "q4" "q5" none "hello" (by decide)⟩

/-- C10 as stated is false on the code: take the configured secret
"a+b" (a password with a `+` in it) and the message "x a+b y", which
contains that secret verbatim.  The code replaces nothing, because the
secret is compiled as a regular expression in which `a+` is a
quantifier, so it matches "ab", "aab", ... but never the literal text
"a+b"; the claimed literal-substring redaction instead yields
"x <redacted> y". -/
theorem replace_sensitive_strings_counterexample :
    replace_sensitive_strings "a+b" "q1" "q2" "q3" "q4" none "x a+b y" = some "x a+b y" ∧
    claimed_redaction "a+b" "q1" "q2" "q3" "q4" none "x a+b y" = some "x <redacted> y" ∧
    replace_sensitive_strings "a+b" "q1" "q2" "q3" "q4" none "x a+b y"
      ≠ claimed_redaction "a+b" "q1" "q2" "q3" "q4" none "x a+b y" :=
  ⟨by decide, by decide, by decide⟩

theorem recipe_error_missing_recipe_witness :
    filterFirstRecipe exDBorphan "nope" = none ∧
    (recipe_error exDBorphan "nope" "boom" (some "t") (some "c")).outcome
      = Except.error "AttributeError" ∧
    (recipe_error exDBorphan "nope" "boom" (some "t") (some "c")).db.recipes = [] :=
  let H := recipe_error_missing_recipe exDBorphan "nope" "boom" (some "t") (some "c")
    (by decide) (by decide)
  ⟨by decide, H.1, by rw [H.2.2.2]; decide⟩
